import Mathlib

/-!
Verification of `python_interview_guide` (level_3 hands-on scripts).

Shallow embedding of the Python sources:
* `level_3/3_testing/hands_on_examples/app.py`
  (`divide`, `UserManager.get_user_names`, `UserManager.add_user`);
* `level_3/4_performance_and_optimization/hands_on_examples/memory_leak_demo.py`
  (`cause_leak`, `safe_function`, the `global_store` list);
* `level_3/4_performance_and_optimization/hands_on_examples/optimization_strategies.py`
  (`fib_naive`, `fib_memoized`, `fib_iterative`).

Python numbers are modelled exactly: integers as `Int`/`Nat`, the result of
true division `/` as `ℚ`.  A Python call that may `raise` is modelled as an
`Except PyError` value; mutation of the stubbed database (`save_user`) and of
the global list `global_store` is modelled by explicit state passing.
-/

/-- The exception kinds raised in `app.py`: `ValueError` (from `add_user`)
and `ZeroDivisionError` (from `divide`), each carrying its message. -/
inductive PyError where
  | valueError (msg : String) : PyError
  | zeroDivisionError (msg : String) : PyError
deriving DecidableEq, Repr

/-- `app.py`, `divide(a, b)`:
`if b == 0: raise ZeroDivisionError("division by zero"); return a / b`.
True division over exact rationals. -/
def divide (a b : ℚ) : Except PyError ℚ :=
  if b = 0 then .error (.zeroDivisionError "division by zero")
  else .ok (a / b)

/-- A user record as handled by `UserManager`: the dict
`{"name": ..., "active": ...}` (the `id` key appearing in test fixtures is
never read by the code under test). -/
structure UserRec where
  name : String
  active : Bool
deriving DecidableEq, Repr

/-- A record returned by the database stub's `get_users`; `get_user_names`
reads only its `name` key, `id` is along for the ride as in the pytest
fixture data. -/
structure DbUser where
  name : String
  id : Int
deriving DecidableEq, Repr

/-- Python `str.upper()`: uppercase the string character by character
(`Char.toUpper` agrees with it on the ASCII data these scripts use). -/
def pyUpper (s : String) : String :=
  ⟨s.data.map Char.toUpper⟩

/-- `app.py`, `UserManager.get_user_names`:
`return [user['name'].upper() for user in users]` where
`users = self.db.get_users()`.  The body contains no `raise`, so the
computation always returns `Except.ok`. -/
def get_user_names (users : List DbUser) : Except PyError (List String) :=
  .ok (users.map (fun user => pyUpper user.name))

/-- The stubbed database state: the list of records passed to `save_user`,
in call order. -/
abbrev DbState := List UserRec

/-- `app.py`, `Database.save_user(user)` as seen through the mock: record
the saved user. -/
def save_user (db : DbState) (user : UserRec) : DbState :=
  List.append db [user]

/-- `app.py`, `UserManager.add_user(name)`:
`if not name: raise ValueError("Name cannot be empty")`, then
`user = {"name": name, "active": True}; self.db.save_user(user); return user`.
Returns the outcome together with the database state after the call; the
`raise` happens before `save_user`, so on the error path the state is the
input state. -/
def add_user (name : String) (db : DbState) : Except PyError UserRec × DbState :=
  if name = "" then (.error (.valueError "Name cannot be empty"), db)
  else
    let user : UserRec := { name := name, active := true }
    (.ok user, save_user db user)

/-- `memory_leak_demo.py`, class `LeakyBucket`: a `name` and a list
`['a'] * (10**5)`. -/
structure LeakyBucket where
  name : String
  data : List Char
deriving DecidableEq, Repr

/-- `LeakyBucket.__init__`: `self.data = ['a'] * (10**5)`. -/
def LeakyBucket.init (name : String) : LeakyBucket :=
  { name := name, data := List.replicate (10 ^ 5) 'a' }

/-- `memory_leak_demo.py`, `cause_leak()`: construct `LeakyBucket("leaky")`
and append it to the global list `global_store`.  The global list is passed
as explicit state. -/
def cause_leak (global_store : List LeakyBucket) : List LeakyBucket :=
  List.append global_store [LeakyBucket.init "leaky"]

/-- `memory_leak_demo.py`, `safe_function()`: construct `LeakyBucket("safe")`
locally and drop it; `global_store` is not touched. -/
def safe_function (global_store : List LeakyBucket) : List LeakyBucket :=
  let _obj := LeakyBucket.init "safe"
  global_store

/-- `optimization_strategies.py`, `fib_naive(n)`:
`if n < 2: return n; return fib_naive(n-1) + fib_naive(n-2)`,
on the natural-number domain of the timing demo. -/
def fib_naive : Nat → Nat
  | 0 => 0
  | 1 => 1
  | n + 2 => fib_naive (n + 1) + fib_naive n

/-- `optimization_strategies.py`, `fib_memoized(n)` under `@lru_cache`: the
same recurrence as `fib_naive`, but each recursive call first consults a
cache of previously computed values and every computed value is recorded in
the cache.  The cache (the `lru_cache` dictionary, unbounded since
`maxsize=None`) is an explicit association list from argument to result;
`cacheLookup` is the dictionary lookup. -/
def cacheLookup (n : Nat) : List (Nat × Nat) → Option Nat
  | [] => none
  | (k, v) :: c => if k = n then some v else cacheLookup n c

/-- The memoized recurrence of `fib_memoized(n)`: on each call, first consult
the cache; on a miss, evaluate the body of the recurrence
(`if n < 2: return n; return fib(n-1) + fib(n-2)`) and record the result. -/
def fibMemoAux : Nat → List (Nat × Nat) → Nat × List (Nat × Nat)
  | 0, cache =>
    match cacheLookup 0 cache with
    | some v => (v, cache)
    | none => (0, (0, 0) :: cache)
  | 1, cache =>
    match cacheLookup 1 cache with
    | some v => (v, cache)
    | none => (1, (1, 1) :: cache)
  | k + 2, cache =>
    match cacheLookup (k + 2) cache with
    | some v => (v, cache)
    | none =>
      let r1 := fibMemoAux (k + 1) cache
      let r2 := fibMemoAux k r1.2
      (r1.1 + r2.1, (k + 2, r1.1 + r2.1) :: r2.2)

/-- `fib_memoized(n)` called on a fresh cache (as at interpreter start-up). -/
def fib_memoized (n : Nat) : Nat :=
  (fibMemoAux n []).1

/-- The loop of `optimization_strategies.py`, `fib_iterative(n)`:
`for _ in range(n): a, b = b, a + b`, iterated on the pair `(a, b)`. -/
def fibIterLoop : Nat → Nat × Nat → Nat × Nat
  | 0, p => p
  | k + 1, p => fibIterLoop k (p.2, p.1 + p.2)

/-- `optimization_strategies.py`, `fib_iterative(n)`:
`a, b = 0, 1`, run the loop `n` times, `return a`. -/
def fib_iterative (n : Nat) : Nat :=
  (fibIterLoop n (0, 1)).1

lemma cacheLookup_mem {n v : Nat} : ∀ {c : List (Nat × Nat)},
    cacheLookup n c = some v → (n, v) ∈ c
  | [], h => by simp [cacheLookup] at h
  | (k, w) :: c, h => by
    by_cases hk : k = n
    · simp [cacheLookup, hk] at h
      simp [hk, h]
    · simp [cacheLookup, hk] at h
      exact List.mem_cons_of_mem _ (cacheLookup_mem h)

lemma fibMemoAux_spec (n : Nat) :
    ∀ c, (∀ p ∈ c, p.2 = fib_naive p.1) →
      (fibMemoAux n c).1 = fib_naive n ∧
      ∀ p ∈ (fibMemoAux n c).2, p.2 = fib_naive p.1 := by
  induction n using Nat.strong_induction_on with
  | _ n ih =>
    intro c hc
    match n with
    | 0 =>
      simp only [fibMemoAux]
      rcases hlk : cacheLookup 0 c with _ | v
      · refine ⟨rfl, fun p hp => ?_⟩
        rcases List.mem_cons.mp hp with rfl | hp'
        · rfl
        · exact hc p hp'
      · exact ⟨hc _ (cacheLookup_mem hlk), hc⟩
    | 1 =>
      simp only [fibMemoAux]
      rcases hlk : cacheLookup 1 c with _ | v
      · refine ⟨rfl, fun p hp => ?_⟩
        rcases List.mem_cons.mp hp with rfl | hp'
        · rfl
        · exact hc p hp'
      · exact ⟨hc _ (cacheLookup_mem hlk), hc⟩
    | k + 2 =>
      simp only [fibMemoAux]
      rcases hlk : cacheLookup (k + 2) c with _ | v
      · obtain ⟨h1, hc1⟩ := ih (k + 1) (by omega) c hc
        obtain ⟨h2, hc2⟩ := ih k (by omega) (fibMemoAux (k + 1) c).2 hc1
        refine ⟨?_, ?_⟩
        · show (fibMemoAux (k + 1) c).1 + (fibMemoAux k (fibMemoAux (k + 1) c).2).1
            = fib_naive (k + 2)
          rw [h1, h2]
          rfl
        · intro p hp
          rcases List.mem_cons.mp hp with rfl | hp'
          · show (fibMemoAux (k + 1) c).1 + (fibMemoAux k (fibMemoAux (k + 1) c).2).1
              = fib_naive (k + 2)
            rw [h1, h2]
            rfl
          · exact hc2 p hp'
      · exact ⟨hc _ (cacheLookup_mem hlk), hc⟩

lemma fib_memoized_eq (n : Nat) : fib_memoized n = fib_naive n :=
  (fibMemoAux_spec n [] (by simp)).1

lemma fibIterLoop_eq (k : Nat) : ∀ i : Nat,
    fibIterLoop k (fib_naive i, fib_naive (i + 1)) =
      (fib_naive (i + k), fib_naive (i + k + 1)) := by
  induction k with
  | zero => intro i; rfl
  | succ k ih =>
    intro i
    show fibIterLoop k (fib_naive (i + 1), fib_naive i + fib_naive (i + 1)) = _
    have h2 : fib_naive i + fib_naive (i + 1) = fib_naive (i + 1 + 1) :=
      Nat.add_comm _ _
    rw [h2, ih (i + 1)]
    have e1 : i + 1 + k = i + (k + 1) := by omega
    rw [e1]

lemma fib_iterative_eq (n : Nat) : fib_iterative n = fib_naive n := by
  have := fibIterLoop_eq n 0
  simp only [fib_iterative]
  rw [show ((0 : Nat), (1 : Nat)) = (fib_naive 0, fib_naive 1) from rfl, this]
  simp

/-- C1: for every dividend `a` and every non-zero divisor `b`,
`divide(a, b)` returns the exact quotient `a / b`. -/
theorem divide_exact (a b : ℚ) (h : b ≠ 0) : divide a b = .ok (a / b) := by
  simp [divide, h]

/-- Witness for C1 at the pytest data point `divide(10, 2) == 5`. -/
theorem divide_exact_witness :
    (2 : ℚ) ≠ 0 ∧ divide 10 2 = .ok 5 :=
  ⟨by norm_num, (divide_exact 10 2 (by norm_num)).trans (by norm_num)⟩

/-- C2: `divide(a, 0)` raises `ZeroDivisionError`, and `divide` signals an
error exactly when the divisor is zero. -/
theorem divide_zero_error (a b : ℚ) :
    divide a 0 = .error (.zeroDivisionError "division by zero") ∧
    ((∃ e, divide a b = .error e) ↔ b = 0) := by
  constructor
  · simp [divide]
  · constructor
    · rintro ⟨e, he⟩
      by_contra hb
      simp [divide, hb] at he
    · rintro rfl
      exact ⟨PyError.zeroDivisionError "division by zero", by simp [divide]⟩

/-- C3: for every stubbed user list with non-empty names,
`UserManager.get_user_names` succeeds with one output name per input record,
in order, each the uppercased input name; in particular the stub data
`[{"name": "alice", "id": 1}, {"name": "bob", "id": 2}]` yields
`["ALICE", "BOB"]`. -/
theorem get_user_names_upper (users : List DbUser)
    (h : ∀ u ∈ users, u.name ≠ "") :
    (∃ ns : List String, get_user_names users = .ok ns ∧
      ns.length = users.length ∧
      ∀ i : Nat, ns[i]? = (users[i]?).map (fun u : DbUser => pyUpper u.name)) ∧
    get_user_names [⟨"alice", 1⟩, ⟨"bob", 2⟩] = .ok ["ALICE", "BOB"] := by
  exact ⟨⟨users.map (fun u : DbUser => pyUpper u.name), rfl, by simp,
    fun i => by simp⟩, rfl⟩

/-- Witness for C3 at the pytest fixture data (`alice`, `bob`). -/
theorem get_user_names_upper_witness :
    (∀ u ∈ ([⟨"alice", 1⟩, ⟨"bob", 2⟩] : List DbUser), u.name ≠ "") ∧
    ((∃ ns : List String, get_user_names [⟨"alice", 1⟩, ⟨"bob", 2⟩] = .ok ns ∧
        ns.length = ([⟨"alice", 1⟩, ⟨"bob", 2⟩] : List DbUser).length ∧
        ∀ i : Nat, ns[i]? = (([⟨"alice", 1⟩, ⟨"bob", 2⟩] : List DbUser)[i]?).map
          (fun u : DbUser => pyUpper u.name)) ∧
      get_user_names [⟨"alice", 1⟩, ⟨"bob", 2⟩] = .ok ["ALICE", "BOB"]) :=
  ⟨by decide, get_user_names_upper [⟨"alice", 1⟩, ⟨"bob", 2⟩] (by decide)⟩

/-- C4 counterexample: on a record whose name is the empty string,
`get_user_names` does NOT fail: it succeeds and returns the empty string
(`"".upper()` is `""` and the comprehension raises nothing). -/
theorem get_user_names_empty_name_ok :
    get_user_names [⟨"", 1⟩] = .ok [""] ∧
    (get_user_names [⟨"", 1⟩]).isOk = true :=
  ⟨rfl, rfl⟩

/-- C4 amended: on a list containing a record with an empty name,
`get_user_names` succeeds (raises no error), mapping the empty name to the
empty string; only `add_user` rejects empty names. -/
theorem get_user_names_empty_name_succeeds (users : List DbUser)
    (h : ∃ u ∈ users, u.name = "") :
    ∃ ns : List String, get_user_names users = .ok ns ∧ "" ∈ ns := by
  obtain ⟨u, hu, hname⟩ := h
  exact ⟨_, rfl, List.mem_map.mpr ⟨u, hu, by simp [hname, pyUpper]⟩⟩

/-- Witness for the amended C4 at the single empty-named record. -/
theorem get_user_names_empty_name_succeeds_witness :
    (∃ u ∈ ([⟨"", 1⟩] : List DbUser), u.name = "") ∧
    ∃ ns : List String, get_user_names [⟨"", 1⟩] = .ok ns ∧ "" ∈ ns :=
  ⟨⟨⟨"", 1⟩, by decide⟩, get_user_names_empty_name_succeeds [⟨"", 1⟩] ⟨⟨"", 1⟩, by decide⟩⟩

/-- C5: `add_user("")` always raises `ValueError` with the message
`"Name cannot be empty"`, whatever the database state. -/
theorem add_user_empty (db : DbState) :
    (add_user "" db).1 = .error (.valueError "Name cannot be empty") := by
  simp [add_user]

/-- C6: for every non-empty name, `add_user(name)` returns the record
`{"name": name, "active": True}` and the stub's `save_user` receives exactly
that record (the saved-record log is extended by exactly it). -/
theorem add_user_nonempty (name : String) (db : DbState) (h : name ≠ "") :
    add_user name db =
      (.ok { name := name, active := true },
        db ++ [{ name := name, active := true }]) := by
  simp [add_user, save_user, h]

/-- Witness for C6 at the pytest data point `add_user("charlie")`. -/
theorem add_user_nonempty_witness :
    "charlie" ≠ "" ∧
    add_user "charlie" [] =
      (.ok { name := "charlie", active := true },
        [{ name := "charlie", active := true }]) :=
  ⟨by decide, add_user_nonempty "charlie" [] (by decide)⟩

/-- C7: whenever `add_user` raises, the raise precedes the `save_user` call,
so the stubbed database state is unchanged. -/
theorem add_user_error_no_save (name : String) (db : DbState) (e : PyError)
    (h : (add_user name db).1 = .error e) : (add_user name db).2 = db := by
  by_cases hn : name = ""
  · simp [add_user, hn]
  · simp [add_user, hn] at h

/-- Witness for C7: `add_user("")` on a one-record database raises and
leaves the database as it was. -/
theorem add_user_error_no_save_witness :
    (add_user "" [{ name := "x", active := true }]).1 =
      .error (.valueError "Name cannot be empty") ∧
    (add_user "" [{ name := "x", active := true }]).2 =
      [{ name := "x", active := true }] :=
  ⟨by simp [add_user],
   add_user_error_no_save "" _ (.valueError "Name cannot be empty") (by simp [add_user])⟩

/-- C9: every `cause_leak()` call appends exactly one `LeakyBucket` to
`global_store` (its length grows by one, the previous contents stay a prefix),
while `safe_function()` leaves `global_store` unchanged. -/
theorem cause_leak_spec (s : List LeakyBucket) :
    cause_leak s = s ++ [LeakyBucket.init "leaky"] ∧
    (cause_leak s).length = s.length + 1 ∧
    s <+: cause_leak s ∧
    safe_function s = s := by
  refine ⟨rfl, by simp [cause_leak], ⟨[LeakyBucket.init "leaky"], rfl⟩, rfl⟩

/-- C10: the three Fibonacci implementations of
`optimization_strategies.py` agree on every natural number:
`fib_naive(n) = fib_memoized(n) = fib_iterative(n)`. -/
theorem fib_implementations_agree (n : Nat) :
    fib_naive n = fib_memoized n ∧ fib_naive n = fib_iterative n :=
  ⟨(fib_memoized_eq n).symm, (fib_iterative_eq n).symm⟩
